import Mathlib

/-!
Verification of the feed-sync script (scripts/sync_rss.py): JSON-line
persistence, deduplication, normalization and rendering.

The persisted log is modelled as a list of text lines.  A parsed record
(Python dict produced by json.loads) is modelled as an association list
from string keys to string-or-null values, in insertion order, duplicate
keys resolved by the last occurrence as in Python.  Two reader layers
are given.  parseLine, load_ids and load_all_jsonl read the record
sublanguage the serializer writes - flat objects with string or null
values - which is all that script-written logs contain.  loadsPy,
load_ids_py and load_all_jsonl_py model json.loads over the full value
grammar and the two readers over arbitrary log lines, including the
error paths the real code has: load_all_jsonl's bare except covers only
the parse, so JSON-parseable non-record lines and non-string dates
reach the sort and raise there.  Char.ofNat is used for the rare
control-character escapes; lone-surrogate escapes, which CPython would
admit into a str, are outside the model.
-/

namespace SyncRss

/-- JSON value as stored in a record: a string or null. -/
abbrev JVal := Option String

/-- Parsed JSON object: key-value pairs in textual order. -/
abbrev Obj := List (String × JVal)

/-- Last binding of a key in an object, matching Python dict semantics
where a later duplicate key overrides an earlier one. -/
def lookupLast (k : String) (o : Obj) : Option JVal :=
  o.reverse.lookup k

/-- Get-with-default over a record, where a null value also falls back
to the default.  This is exactly the renderer's pattern of get followed
by an or with the empty string, for which None and the empty string
coincide; as the date sort key of the restricted reader it agrees with
the real key only while every stored date is a string or absent.  The
general behavior, where CPython's get returns None for a null value and
a null or non-string date then makes the real sort raise, is modelled
by dateKeyJ and load_all_jsonl_py further down. -/
def pyGetD (o : Obj) (k : String) (d : String) : String :=
  match lookupLast k o with
  | some (some s) => s
  | _ => d

/-- Lowercase hex digit for a value below 16, as printed by CPython. -/
def hexDigitChar (n : Nat) : Char :=
  if n < 10 then Char.ofNat (48 + n) else Char.ofNat (87 + n)

/-- Recognizes an ASCII hexadecimal digit. -/
def isHex (c : Char) : Bool :=
  (48 ≤ c.toNat && c.toNat ≤ 57) || (97 ≤ c.toNat && c.toNat ≤ 102)
    || (65 ≤ c.toNat && c.toNat ≤ 70)

/-- Numeric value of a hexadecimal digit. -/
def hexVal (c : Char) : Nat :=
  if 48 ≤ c.toNat && c.toNat ≤ 57 then c.toNat - 48
  else if 97 ≤ c.toNat && c.toNat ≤ 102 then c.toNat - 87
  else if 65 ≤ c.toNat && c.toNat ≤ 70 then c.toNat - 55
  else 0

/-- Escape of one character inside a JSON string literal, following
CPython json.dumps with ensure_ascii=False: quote, backslash and control
characters below 0x20 are escaped (named escapes where they exist,
otherwise a 4-digit unicode escape); everything else, in particular
every non-ASCII glyph, is emitted verbatim. -/
def escChar (c : Char) : List Char :=
  if c = '"' then ['\\', '"']
  else if c = '\\' then ['\\', '\\']
  else if c = '\n' then ['\\', 'n']
  else if c = '\t' then ['\\', 't']
  else if c = '\r' then ['\\', 'r']
  else if c = '\x08' then ['\\', 'b']
  else if c = '\x0c' then ['\\', 'f']
  else if c.toNat < 32 then
    ['\\', 'u', '0', '0', hexDigitChar (c.toNat / 16), hexDigitChar (c.toNat % 16)]
  else [c]

/-- Escape every character of a string body. -/
def escChars (cs : List Char) : List Char :=
  cs.foldr (fun c acc => escChar c ++ acc) []

/-- Serialization of a value: null, or a quoted escaped string. -/
def serValChars (v : JVal) : List Char :=
  match v with
  | none => ['n', 'u', 'l', 'l']
  | some s => '"' :: escChars s.data ++ ['"']

/-- Serialization of one key-value pair, using the default json.dumps
key separator, a colon and a space. -/
def serPairChars (p : String × JVal) : List Char :=
  '"' :: escChars p.1.data ++ '"' :: ':' :: ' ' :: serValChars p.2

/-- Serialization of the pair list, using the default json.dumps item
separator, a comma and a space. -/
def serPairsChars : Obj → List Char
  | [] => []
  | [p] => serPairChars p
  | p :: q :: ps => serPairChars p ++ ',' :: ' ' :: serPairsChars (q :: ps)

/-- Model of json.dumps(obj, ensure_ascii=False) for a record object. -/
def dumpsObj (o : Obj) : String :=
  String.mk ('\x7b' :: serPairsChars o ++ ['\x7d'])

/-- JSON insignificant whitespace. -/
def isJWs (c : Char) : Bool :=
  c = ' ' || c = '\t' || c = '\n' || c = '\r'

/-- Decoding table for the single-character JSON string escapes. -/
def unescChar (c : Char) : Option Char :=
  if c = '"' then some '"'
  else if c = '\\' then some '\\'
  else if c = '/' then some '/'
  else if c = 'b' then some '\x08'
  else if c = 'f' then some '\x0c'
  else if c = 'n' then some '\n'
  else if c = 'r' then some '\r'
  else if c = 't' then some '\t'
  else none

/-- Parse the body of a JSON string literal (the opening quote already
consumed), returning the decoded characters and the remaining input.
Unescaped control characters are rejected, as in json.loads strict
mode. -/
def parseJStr : List Char → Option (List Char × List Char)
  | [] => none
  | c :: rest =>
    if c = '"' then some ([], rest)
    else if c = '\\' then
      match rest with
      | [] => none
      | e :: rest2 =>
        if e = 'u' then
          match rest2 with
          | h1 :: h2 :: h3 :: h4 :: rest3 =>
            if isHex h1 && isHex h2 && isHex h3 && isHex h4 then
              match parseJStr rest3 with
              | some (acc, rem) =>
                some (Char.ofNat
                  (((hexVal h1 * 16 + hexVal h2) * 16 + hexVal h3) * 16 + hexVal h4)
                  :: acc, rem)
              | none => none
            else none
          | _ => none
        else
          match unescChar e with
          | some ch =>
            match parseJStr rest2 with
            | some (acc, rem) => some (ch :: acc, rem)
            | none => none
          | none => none
    else if c.toNat < 32 then none
    else
      match parseJStr rest with
      | some (acc, rem) => some (c :: acc, rem)
      | none => none

/-- Parse a JSON value of the restricted grammar: a string literal or
the literal null. -/
def parseVal : List Char → Option (JVal × List Char)
  | '"' :: rest =>
    match parseJStr rest with
    | some (s, rem) => some (some (String.mk s), rem)
    | none => none
  | 'n' :: 'u' :: 'l' :: 'l' :: rest => some (none, rest)
  | _ => none

/-- Parse a nonempty sequence of key-value pairs followed by the closing
brace, positioned at the first character of a key.  The fuel argument
bounds the number of pairs; callers pass the input length, which always
suffices. -/
def parsePairs : Nat → List Char → Option (Obj × List Char)
  | 0, _ => none
  | Nat.succ fuel, cs =>
    match cs with
    | [] => none
    | c :: rest =>
      if c = '"' then
        match parseJStr rest with
        | some (k, rest1) =>
          match rest1.dropWhile isJWs with
          | [] => none
          | c1 :: rest3 =>
            if c1 = ':' then
              match parseVal (rest3.dropWhile isJWs) with
              | some (v, rest4) =>
                match rest4.dropWhile isJWs with
                | [] => none
                | c2 :: rest6 =>
                  if c2 = ',' then
                    match parsePairs fuel (rest6.dropWhile isJWs) with
                    | some (ps, rem) => some ((String.mk k, v) :: ps, rem)
                    | none => none
                  else if c2 = '\x7d' then some ([(String.mk k, v)], rest6)
                  else none
              | none => none
            else none
        | none => none
      else none

/-- Recognizer for the record sublanguage: succeeds exactly on lines
whose JSON value is a flat object with string or null values, the shape
append_jsonl writes, and yields that record.  The full json.loads
grammar is modelled by loadsPy further down; parseLine backs the
serializer round-trip and the readers restricted to script-written
logs. -/
def parseLine (s : String) : Option Obj :=
  match s.data.dropWhile isJWs with
  | [] => none
  | c :: rest =>
    if c = '\x7b' then
      match rest.dropWhile isJWs with
      | [] => none
      | c2 :: rest2 =>
        if c2 = '\x7d' then
          if rest2.dropWhile isJWs = [] then some [] else none
        else
          match parsePairs (s.data.length + 1) (c2 :: rest2) with
          | some (ps, rem) =>
            if rem.dropWhile isJWs = [] then some ps else none
          | none => none
    else none

/-- Model of str.strip with no argument: remove whitespace from both
ends, restricted to the ASCII whitespace characters. -/
def pyStrip (s : String) : String :=
  String.mk (((s.data.dropWhile Char.isWhitespace).reverse.dropWhile
    Char.isWhitespace).reverse)

/-- Lexicographic order on code points, the comparison Python uses
between strings: shorter prefixes first, heads compared by code
point. -/
def lexLe : List Char → List Char → Bool
  | [], _ => true
  | _ :: _, [] => false
  | a :: as, b :: bs =>
    if a.toNat < b.toNat then true
    else if a.toNat = b.toNat then lexLe as bs
    else false

/-- String comparison by code points. -/
def strLe (a b : String) : Bool :=
  lexLe a.data b.data

/-- Canonical normalized entry, the dict built by the normalizers. -/
structure Entry where
  id : String
  title : String
  link : String
  rating_stars : Option String
  review_html : String
  date_utc : String
deriving DecidableEq, Repr

/-- Raw feed entry as exposed by the feed library: every field optional,
none standing for an absent or null attribute.  The guid field models
the native id attribute of the entry. -/
structure RawEntry where
  guid : Option String := none
  link : Option String := none
  title : Option String := none
  summary : Option String := none
  published : Option String := none
  updated : Option String := none
deriving DecidableEq, Repr

/-- Dict layout of a normalized entry, keys in the insertion order used
by both normalizers. -/
def toObj (x : Entry) : Obj :=
  [("id", some x.id), ("title", some x.title), ("link", some x.link),
   ("rating_stars", x.rating_stars), ("review_html", some x.review_html),
   ("date_utc", some x.date_utc)]

/-- Reader of seen ids restricted to the record sublanguage: parse each
line as a record, collect the id value, skip the rest.  The Python set
is modelled as the list of collected values, membership standing for
set membership; a null id is collected as None is in Python.  On
script-written logs this is load_ids; over arbitrary lines, where
load_ids can also collect non-string ids, the faithful reader is
load_ids_py further down. -/
def load_ids (lines : List String) : List JVal :=
  lines.filterMap (fun l => (parseLine l).bind (lookupLast "id"))

/-- Sort key of load_all_jsonl: the date_utc value, an absent key
sorting as the empty string. -/
def dateKey (o : Obj) : String :=
  pyGetD o "date_utc" ""

/-- Model of sorted(items, key=date, reverse=True): a stable descending
sort, here insertion sort with the reflexive key-greater-or-equal
relation, which is stable in the same way. -/
def sortDesc (items : List Obj) : List Obj :=
  items.insertionSort (fun a b => strLe (dateKey b) (dateKey a) = true)

/-- Reader of the full log restricted to the record sublanguage: parse
every line as a record, skip the rest, sort by date descending.  On
script-written logs this is load_all_jsonl; over arbitrary lines, where
the real function can raise, the faithful reader is load_all_jsonl_py
further down. -/
def load_all_jsonl (lines : List String) : List Obj :=
  sortDesc (lines.filterMap parseLine)

/-- Model of append_jsonl: serialize each record onto its own new line
at the end of the log.  The early return on an empty batch appends
nothing, as here. -/
def append_jsonl (lines : List String) (items : List Obj) : List String :=
  lines ++ items.map dumpsObj

/-- Log file state including absence: none models a path that does not
exist yet. -/
abbrev LogFile := Option (List String)

/-- Model of load_ids including the missing-file branch, which returns
the empty set without touching the filesystem. -/
def load_ids_file : LogFile → List JVal
  | none => []
  | some lines => load_ids lines

/-- Model of load_all_jsonl including the missing-file branch, which
sorts the empty item list. -/
def load_all_jsonl_file : LogFile → List Obj
  | none => []
  | some lines => load_all_jsonl lines

/-- Model of stars_to_5: count the filled glyphs, add one half if the
half glyph occurs, then int(round(val)).  CPython round uses
round-half-to-even, and full + 0.5 is an exact float midpoint for any
realistic count, so the rounded value is full when full is even and
full + 1 when full is odd. -/
def stars_to_5 (s : String) : Nat :=
  let full := s.data.count '★'
  if s.data.contains '½' then (if full % 2 = 0 then full else full + 1) else full

/-- Rendered star string for an integer rating n: n filled glyphs then
5 - n empty glyphs.  Python string repetition by a negative count gives
the empty string, which truncated Nat subtraction reproduces. -/
def mkStars (n : Nat) : String :=
  String.mk (List.replicate n '★' ++ List.replicate (5 - n) '☆')

/-- Model of rating_to_stars: None maps to None, an integer to its glyph
string. -/
def rating_to_stars (n : Option Nat) : Option String :=
  n.map mkStars

/-- The half run matched at a position whose first character is the
filled glyph: the maximal run of filled glyphs, extended by one half
glyph when it follows immediately, as the greedy regex does. -/
def takeStarRun (cs : List Char) : List Char :=
  let stars := cs.takeWhile (fun c => c = '★')
  match cs.dropWhile (fun c => c = '★') with
  | '½' :: _ => stars ++ ['½']
  | _ => stars

/-- Model of re.search for the star-run pattern: the match at the
leftmost position holding a filled glyph, none when no filled glyph
occurs anywhere. -/
def findStarRun : List Char → Option (List Char)
  | [] => none
  | c :: rest =>
    if c = '★' then some (takeStarRun (c :: rest)) else findStarRun rest

/-- Whitespace class of the regex library for the shorthand inside the
book rating pattern, restricted to its ASCII members. -/
def pyIsSpace (c : Char) : Bool :=
  c = ' ' || c = '\t' || c = '\n' || c = '\r' || c = '\x0b' || c = '\x0c'

/-- Attempt to match the book rating pattern at the head of the input:
the word rating, case-insensitively, a colon, optional whitespace, then
one digit between 0 and 5, whose value is returned. -/
def matchRatingAt (cs : List Char) : Option Nat :=
  match cs with
  | c1 :: c2 :: c3 :: c4 :: c5 :: c6 :: c7 :: rest =>
    if c1.toLower = 'r' && c2.toLower = 'a' && c3.toLower = 't' && c4.toLower = 'i'
        && c5.toLower = 'n' && c6.toLower = 'g' && c7 = ':' then
      match rest.dropWhile pyIsSpace with
      | d :: _ =>
        if 48 ≤ d.toNat && d.toNat ≤ 53 then some (d.toNat - 48) else none
      | [] => none
    else none
  | _ => none

/-- Model of the case-insensitive re.search for the book rating pattern:
try every position left to right, returning the first match's digit
value. -/
def findRating : List Char → Option Nat
  | [] => none
  | c :: rest =>
    match matchRatingAt (c :: rest) with
    | some n => some n
    | none => findRating rest

/-- Model of parse_date's key loop: a truthy attribute is fed to the
date parser; a parse failure falls through to the next key; exhaustion
falls back to the current time.  The permissive date parser and the
current timestamp are parameters dtp and now. -/
def tryDateKeys (dtp : String → Option String) (now : String) : List (Option String) → String
  | [] => now
  | v :: rest =>
    match v with
    | some s =>
      if s ≠ "" then
        match dtp s with
        | some r => r
        | none => tryDateKeys dtp now rest
      else tryDateKeys dtp now rest
    | none => tryDateKeys dtp now rest

/-- Model of parse_date: published first, then updated, then now. -/
def parse_date (dtp : String → Option String) (now : String) (e : RawEntry) : String :=
  tryDateKeys dtp now [e.published, e.updated]

/-- Normalization of one film-feed entry, the loop body of
normalize_letterboxd: strip the text fields, derive the id from the
stripped guid falling back to the stripped link, extract the star run
from the title and convert it to a rating.  The try around stars_to_5
is dead in Python, as counting and membership never raise. -/
def normalize_letterboxd_entry (dtp : String → Option String) (now : String)
    (e : RawEntry) : Entry :=
  let link := pyStrip (e.link.getD "")
  let guid := if pyStrip (e.guid.getD "") = "" then link else pyStrip (e.guid.getD "")
  let title := pyStrip (e.title.getD "")
  let summary := pyStrip (e.summary.getD "")
  let rating := (findStarRun title.data).map (fun m => stars_to_5 (String.mk m))
  { id := "letterboxd:" ++ guid
    title := title
    link := link
    rating_stars := rating_to_stars rating
    review_html := summary
    date_utc := parse_date dtp now e }

/-- Normalization of one book-feed entry, the loop body of
normalize_goodreads: as for films, except the rating comes from the
case-insensitive numeric pattern in the stripped summary.  The int
conversion of a matched digit never raises, so the try is dead. -/
def normalize_goodreads_entry (dtp : String → Option String) (now : String)
    (e : RawEntry) : Entry :=
  let link := pyStrip (e.link.getD "")
  let guid := if pyStrip (e.guid.getD "") = "" then link else pyStrip (e.guid.getD "")
  let title := pyStrip (e.title.getD "")
  let summary := pyStrip (e.summary.getD "")
  let rating := findRating summary.data
  { id := "goodreads:" ++ guid
    title := title
    link := link
    rating_stars := rating_to_stars rating
    review_html := summary
    date_utc := parse_date dtp now e }

/-- Model of normalize_letterboxd on an already-fetched entry list. -/
def normalize_letterboxd (dtp : String → Option String) (now : String)
    (raws : List RawEntry) : List Entry :=
  raws.map (normalize_letterboxd_entry dtp now)

/-- Model of normalize_goodreads on an already-fetched entry list. -/
def normalize_goodreads (dtp : String → Option String) (now : String)
    (raws : List RawEntry) : List Entry :=
  raws.map (normalize_goodreads_entry dtp now)

/-- The filter step of main: keep the normalized entries whose id is
not in the seen set loaded from the log. -/
def filterNew (lines : List String) (feed : List Entry) : List Entry :=
  feed.filter (fun e => !decide ((some e.id) ∈ load_ids lines))

/-- One film-sync cycle of main on an existing log, rendering aside:
load the seen ids, normalize the fetched entries, append the new
ones. -/
def runLetterboxd (dtp : String → Option String) (now : String)
    (lines : List String) (raws : List RawEntry) : List String :=
  append_jsonl lines ((filterNew lines (normalize_letterboxd dtp now raws)).map toObj)

/-- One book-sync cycle of main on an existing log, rendering aside. -/
def runGoodreads (dtp : String → Option String) (now : String)
    (lines : List String) (raws : List RawEntry) : List String :=
  append_jsonl lines ((filterNew lines (normalize_goodreads dtp now raws)).map toObj)

/-- The writes render_page performs for one entry of the page body: the
opening block, the heading with or without a link, the optional rating
line, the optional review line, the closing block.  A falsy rating or
review, None or empty, is replaced by the empty string and its line
skipped. -/
def renderEntryWrites (it : Obj) : List String :=
  let stars := pyGetD it "rating_stars" ""
  let review := pyGetD it "review_html" ""
  let titleText := pyGetD it "title" ""
  let link := pyGetD it "link" ""
  ["<div class=\"entry\">\n"]
    ++ (if link ≠ "" then
          ["<h2><a href=\"" ++ link ++ "\">" ++ titleText ++ "</a></h2>\n"]
        else ["<h2>" ++ titleText ++ "</h2>\n"])
    ++ (if stars ≠ "" then ["<p class=\"rating\">" ++ stars ++ "</p>\n"] else [])
    ++ (if review ≠ "" then ["<p class=\"review\">" ++ review ++ "</p>\n"] else [])
    ++ ["</div>\n<hr>\n"]

/-- Whether the rendered block of an entry contains a rating line. -/
def hasRatingLine (it : Obj) : Bool :=
  (renderEntryWrites it).any (fun s => List.isPrefixOf "<p class=\"rating\">".data s.data)

/-! Faithful reader layer.

The restricted reader parseLine above recognizes only the record
sublanguage the serializer writes.  json.loads itself accepts every
JSON value, and the script's two readers guard different amounts of
code with their bare except: load_ids wraps the parse, the id
subscript and the set insertion, so any of those failing skips the
line, while load_all_jsonl wraps only the parse, so a JSON-parseable
non-record line flows into sorted and makes the key access raise.
The definitions below model that behavior over arbitrary log lines. -/

/-- JSON value as json.loads yields it.  A number is kept as its source
token, since the script never does arithmetic on one; two tokens of
equal numeric value (such as 5 and 5.0) therefore stay distinct here
where Python would identify them.  An object keeps its pairs in source
order; key lookups take the last occurrence, the dict's last-wins
rule. -/
inductive JsonVal where
  | null
  | bool (b : Bool)
  | num (tok : String)
  | str (s : String)
  | arr (xs : List JsonVal)
  | obj (fields : List (String × JsonVal))

/-- ASCII decimal digit. -/
def isDigitCh (c : Char) : Bool :=
  48 ≤ c.toNat && c.toNat ≤ 57

/-- ASCII decimal digit other than zero. -/
def isDigit19 (c : Char) : Bool :=
  49 ≤ c.toNat && c.toNat ≤ 57

/-- Optional fraction part of a JSON number: a dot followed by one or
more digits; anything else matches the empty fraction, leaving the
input in place, as the number regex of the json module does. -/
def parseFrac (cs : List Char) : List Char × List Char :=
  match cs with
  | '.' :: rest =>
    let ds := rest.takeWhile isDigitCh
    if ds = [] then ([], cs)
    else ('.' :: ds, rest.drop ds.length)
  | _ => ([], cs)

/-- Optional exponent part of a JSON number: e or E, an optional sign,
one or more digits; anything else matches the empty exponent. -/
def parseExp (cs : List Char) : List Char × List Char :=
  match cs with
  | c :: rest =>
    if c = 'e' || c = 'E' then
      match rest with
      | s :: rest2 =>
        if s = '+' || s = '-' then
          let ds := rest2.takeWhile isDigitCh
          if ds = [] then ([], cs) else (c :: s :: ds, rest2.drop ds.length)
        else
          let ds := rest.takeWhile isDigitCh
          if ds = [] then ([], cs) else (c :: ds, rest.drop ds.length)
      | [] => ([], cs)
    else ([], cs)
  | [] => ([], cs)

/-- Body of a JSON number after an optional leading minus: a bare zero
or a nonzero digit with its digit run, then optional fraction and
exponent, exactly the json module's number regex. -/
def parseNumBody (cs : List Char) : Option (List Char × List Char) :=
  match cs with
  | [] => none
  | c :: rest =>
    if c = '0' then
      let (fe, rem0) := parseFrac rest
      let (ex, rem) := parseExp rem0
      some ('0' :: (fe ++ ex), rem)
    else if isDigit19 c then
      let ds := rest.takeWhile isDigitCh
      let rem0 := rest.drop ds.length
      let (fe, rem1) := parseFrac rem0
      let (ex, rem) := parseExp rem1
      some (c :: (ds ++ (fe ++ ex)), rem)
    else none

/-- Recursive descent over the full JSON grammar, strict json.loads
defaults: the NaN and Infinity constants are accepted, string escapes
are decoded by parseJStr, arrays and objects allow the standard
insignificant whitespace.  The mode argument selects the production -
0 a value, 1 an array tail at its first element, 2 an object tail at
its first key - so that one function carries the whole grammar and the
recursion stays structural on the fuel, which callers seed generously;
a line deep enough to exhaust it fails to parse, as CPython's own
recursion limit makes such a line raise and be skipped. -/
def parseJCore : Nat → Nat → List Char → Option (JsonVal × List Char)
  | 0, _, _ => none
  | Nat.succ fuel, mode, cs =>
    if mode = 1 then
      match parseJCore fuel 0 cs with
      | some (v, rest1) =>
        match rest1.dropWhile isJWs with
        | [] => none
        | c2 :: rest2 =>
          if c2 = ',' then
            match parseJCore fuel 1 (rest2.dropWhile isJWs) with
            | some (JsonVal.arr xs, rem) => some (JsonVal.arr (v :: xs), rem)
            | _ => none
          else if c2 = ']' then some (JsonVal.arr [v], rest2)
          else none
      | none => none
    else if mode = 2 then
      match cs with
      | [] => none
      | c :: rest =>
        if c = '"' then
          match parseJStr rest with
          | some (k, rest1) =>
            match rest1.dropWhile isJWs with
            | [] => none
            | c1 :: rest3 =>
              if c1 = ':' then
                match parseJCore fuel 0 (rest3.dropWhile isJWs) with
                | some (v, rest4) =>
                  match rest4.dropWhile isJWs with
                  | [] => none
                  | c2 :: rest6 =>
                    if c2 = ',' then
                      match parseJCore fuel 2 (rest6.dropWhile isJWs) with
                      | some (JsonVal.obj ps, rem) =>
                        some (JsonVal.obj ((String.mk k, v) :: ps), rem)
                      | _ => none
                    else if c2 = '\x7d' then
                      some (JsonVal.obj [(String.mk k, v)], rest6)
                    else none
                | none => none
              else none
          | none => none
        else none
    else
      match cs with
      | [] => none
      | c :: rest =>
        if c = '"' then
          match parseJStr rest with
          | some (sChars, rem) => some (JsonVal.str (String.mk sChars), rem)
          | none => none
        else if c = '\x7b' then
          match rest.dropWhile isJWs with
          | [] => none
          | c2 :: rest2 =>
            if c2 = '\x7d' then some (JsonVal.obj [], rest2)
            else parseJCore fuel 2 (c2 :: rest2)
        else if c = '[' then
          match rest.dropWhile isJWs with
          | [] => none
          | c2 :: rest2 =>
            if c2 = ']' then some (JsonVal.arr [], rest2)
            else parseJCore fuel 1 (c2 :: rest2)
        else if c = 'n' then
          match rest with
          | 'u' :: 'l' :: 'l' :: rem => some (JsonVal.null, rem)
          | _ => none
        else if c = 't' then
          match rest with
          | 'r' :: 'u' :: 'e' :: rem => some (JsonVal.bool true, rem)
          | _ => none
        else if c = 'f' then
          match rest with
          | 'a' :: 'l' :: 's' :: 'e' :: rem => some (JsonVal.bool false, rem)
          | _ => none
        else if c = 'N' then
          match rest with
          | 'a' :: 'N' :: rem => some (JsonVal.num "NaN", rem)
          | _ => none
        else if c = 'I' then
          match rest with
          | 'n' :: 'f' :: 'i' :: 'n' :: 'i' :: 't' :: 'y' :: rem =>
            some (JsonVal.num "Infinity", rem)
          | _ => none
        else if c = '-' then
          match rest with
          | 'I' :: 'n' :: 'f' :: 'i' :: 'n' :: 'i' :: 't' :: 'y' :: rem =>
            some (JsonVal.num "-Infinity", rem)
          | _ =>
            match parseNumBody rest with
            | some (tok, rem) => some (JsonVal.num (String.mk ('-' :: tok)), rem)
            | none => none
        else
          match parseNumBody (c :: rest) with
          | some (tok, rem) => some (JsonVal.num (String.mk tok), rem)
          | none => none

/-- Model of json.loads on one log line, over the full value grammar:
surrounding whitespace is ignored, trailing data is an error. -/
def loadsPy (s : String) : Option JsonVal :=
  match parseJCore (2 * s.data.length + 2) 0 (s.data.dropWhile isJWs) with
  | some (v, rest) => if rest.dropWhile isJWs = [] then some v else none
  | none => none

/-- Whether a value is an object, the dict-shape test behind both the
id subscript and the sort-key attribute access. -/
def jIsObj : JsonVal → Bool
  | JsonVal.obj _ => true
  | _ => false

/-- Last binding of a key among an object's pairs, the dict lookup. -/
def jLookupLast (k : String) (fields : List (String × JsonVal)) : Option JsonVal :=
  fields.reverse.lookup k

/-- Whether a value may enter a Python set: lists and dicts are
unhashable and make the insertion raise. -/
def jHashable : JsonVal → Bool
  | JsonVal.arr _ => false
  | JsonVal.obj _ => false
  | _ => true

/-- Faithful model of load_ids on the lines of an existing log: the
bare except wraps the parse, the id subscript and the set insertion,
so a line is skipped when it fails to parse, is not an object, lacks
the id key, or carries an unhashable id; otherwise its id value, of
whatever JSON type, is collected.  The Python set is modelled as the
collection list, membership standing for set membership. -/
def load_ids_py (lines : List String) : List JsonVal :=
  lines.filterMap (fun l =>
    match loadsPy l with
    | some (JsonVal.obj f) =>
      match jLookupLast "id" f with
      | some v => if jHashable v then some v else none
      | none => none
    | _ => none)

/-- Sort key the real load_all_jsonl computes, as a string: the
date_utc value when it is a string, the empty-string default when the
key is absent.  On a non-object item or a non-string date this helper
is only a placeholder; load_all_jsonl_py reports the corresponding
error before this value could matter. -/
def dateKeyJ (v : JsonVal) : String :=
  match v with
  | JsonVal.obj f =>
    match jLookupLast "date_utc" f with
    | some (JsonVal.str s) => s
    | _ => ""
  | _ => ""

/-- Whether an object's date_utc key is absent or bound to a string,
the condition under which the real sort key is the string dateKeyJ
gives. -/
def jDateStrOk (v : JsonVal) : Bool :=
  match v with
  | JsonVal.obj f =>
    match jLookupLast "date_utc" f with
    | none => true
    | some (JsonVal.str _) => true
    | some _ => false
  | _ => true

/-- Stable descending sort of parsed items by the string date key. -/
def sortDescPy (items : List JsonVal) : List JsonVal :=
  items.insertionSort (fun a b => strLe (dateKeyJ b) (dateKeyJ a) = true)

/-- The exception a reader lets escape. -/
inductive PyErr where
  | attributeError
  | typeError
deriving DecidableEq, Repr

/-- Faithful model of load_all_jsonl on the lines of an existing log:
only the parse sits inside the try, so every JSON-parseable line's
value enters the item list; sorted then computes one key per item in
list order, raising AttributeError at the first non-dict item, and
afterwards compares keys, which succeeds when they are all strings and,
for two or more items, raises TypeError on the string-against-non-string
comparisons the mixed keys force.  A single item is returned without
any comparison.  One region is simplified: two or more items whose
keys are all non-strings of one comparable family (all numbers, say)
would sort in CPython but report the type error here; the script never
writes such records and no claim quantifies into that region. -/
def load_all_jsonl_py (lines : List String) : Except PyErr (List JsonVal) :=
  let items := lines.filterMap loadsPy
  if items.all jIsObj then
    if items.all jDateStrOk then Except.ok (sortDescPy items)
    else if items.length ≤ 1 then Except.ok items
    else Except.error PyErr.typeError
  else Except.error PyErr.attributeError

/-- Reading of a record object as the general reader sees it: string
values become JSON strings, the nullable rating becomes null. -/
def objToJson (o : Obj) : JsonVal :=
  JsonVal.obj (o.map (fun p => (p.1,
    match p.2 with
    | none => JsonVal.null
    | some s => JsonVal.str s)))

/-! Round-trip of the serializer and the reader. -/

theorem hexDigitChar_rt : ∀ k : Nat, k < 16 →
    isHex (hexDigitChar k) = true ∧ hexVal (hexDigitChar k) = k := by
  decide

theorem parseJStr_escChars (s : List Char) (rest : List Char) :
    parseJStr (escChars s ++ '"' :: rest) = some (s, rest) := by
  induction s with
  | nil =>
    show parseJStr ('"' :: rest) = some ([], rest)
    rw [parseJStr.eq_def]; simp
  | cons c cs ih =>
    show parseJStr ((escChar c ++ escChars cs) ++ '"' :: rest) = some (c :: cs, rest)
    rw [List.append_assoc]
    by_cases h1 : c = '"'
    · subst h1
      show parseJStr ('\\' :: '"' :: (escChars cs ++ '"' :: rest)) = _
      rw [parseJStr.eq_def]; simp +decide [unescChar, ih]
    by_cases h2 : c = '\\'
    · subst h2
      show parseJStr ('\\' :: '\\' :: (escChars cs ++ '"' :: rest)) = _
      rw [parseJStr.eq_def]; simp +decide [unescChar, ih]
    by_cases h3 : c = '\n'
    · subst h3
      show parseJStr ('\\' :: 'n' :: (escChars cs ++ '"' :: rest)) = _
      rw [parseJStr.eq_def]; simp +decide [unescChar, ih]
    by_cases h4 : c = '\t'
    · subst h4
      show parseJStr ('\\' :: 't' :: (escChars cs ++ '"' :: rest)) = _
      rw [parseJStr.eq_def]; simp +decide [unescChar, ih]
    by_cases h5 : c = '\r'
    · subst h5
      show parseJStr ('\\' :: 'r' :: (escChars cs ++ '"' :: rest)) = _
      rw [parseJStr.eq_def]; simp +decide [unescChar, ih]
    by_cases h6 : c = '\x08'
    · subst h6
      show parseJStr ('\\' :: 'b' :: (escChars cs ++ '"' :: rest)) = _
      rw [parseJStr.eq_def]; simp +decide [unescChar, ih]
    by_cases h7 : c = '\x0c'
    · subst h7
      show parseJStr ('\\' :: 'f' :: (escChars cs ++ '"' :: rest)) = _
      rw [parseJStr.eq_def]; simp +decide [unescChar, ih]
    by_cases h8 : c.toNat < 32
    · have he : escChar c
          = ['\\', 'u', '0', '0', hexDigitChar (c.toNat / 16), hexDigitChar (c.toNat % 16)] := by
        unfold escChar
        rw [if_neg h1, if_neg h2, if_neg h3, if_neg h4, if_neg h5, if_neg h6,
          if_neg h7, if_pos h8]
      rw [he]
      have hd : c.toNat / 16 < 16 := by omega
      have hm : c.toNat % 16 < 16 := by omega
      obtain ⟨hd1, hd2⟩ := hexDigitChar_rt _ hd
      obtain ⟨hm1, hm2⟩ := hexDigitChar_rt _ hm
      show parseJStr ('\\' :: 'u' :: '0' :: '0' :: hexDigitChar (c.toNat / 16)
        :: hexDigitChar (c.toNat % 16) :: (escChars cs ++ '"' :: rest)) = _
      rw [parseJStr.eq_def]
      simp +decide only []
      rw [hd1, hm1]
      simp +decide only [Bool.and_self, if_true, ih]
      have hv : ((hexVal '0' * 16 + hexVal '0') * 16 + hexVal (hexDigitChar (c.toNat / 16)))
          * 16 + hexVal (hexDigitChar (c.toNat % 16)) = c.toNat := by
        rw [hd2, hm2]
        have h0 : hexVal '0' = 0 := by decide
        rw [h0]; omega
      rw [hv, Char.ofNat_toNat]
      simp
    · have he : escChar c = [c] := by
        unfold escChar
        rw [if_neg h1, if_neg h2, if_neg h3, if_neg h4, if_neg h5, if_neg h6,
          if_neg h7, if_neg h8]
      rw [he]
      show parseJStr (c :: (escChars cs ++ '"' :: rest)) = _
      rw [parseJStr.eq_def]
      simp only [if_neg h1, if_neg h2, if_neg h8, ih]

theorem parseVal_serVal (v : JVal) (rest : List Char) :
    parseVal (serValChars v ++ rest) = some (v, rest) := by
  cases v with
  | none => rfl
  | some s =>
    show parseVal ('"' :: (escChars s.data ++ ['"']) ++ rest) = some (some s, rest)
    rw [List.cons_append, List.append_assoc]
    show parseVal ('"' :: (escChars s.data ++ '"' :: rest)) = some (some s, rest)
    rw [parseVal.eq_def]
    simp only [parseJStr_escChars]

theorem dropWhile_serVal (v : JVal) (t : List Char) :
    (serValChars v ++ t).dropWhile isJWs = serValChars v ++ t := by
  cases v <;> simp +decide [serValChars, List.dropWhile, isJWs]

theorem dropWhile_serPairs (q : String × JVal) (ps : Obj) (t : List Char) :
    (serPairsChars (q :: ps) ++ t).dropWhile isJWs = serPairsChars (q :: ps) ++ t := by
  cases ps <;>
    simp +decide [serPairsChars, serPairChars, List.cons_append, List.dropWhile, isJWs]

theorem parsePairs_serPairs (ps : Obj) (hne : ps ≠ []) :
    ∀ (fuel : Nat), ps.length ≤ fuel → ∀ (rest : List Char),
    parsePairs fuel (serPairsChars ps ++ '\x7d' :: rest) = some (ps, rest) := by
  induction ps with
  | nil => cases hne rfl
  | cons p ps ih =>
    intro fuel hf rest
    match fuel, hf with
    | Nat.succ f, hf =>
      cases ps with
      | nil =>
        show parsePairs (f + 1) (serPairChars p ++ '\x7d' :: rest) = some ([p], rest)
        have hs : serPairChars p ++ '\x7d' :: rest
            = '"' :: (escChars p.1.data ++ '"' :: ':' :: ' '
              :: (serValChars p.2 ++ '\x7d' :: rest)) := by
          simp [serPairChars, List.cons_append, List.append_assoc]
        rw [hs, parsePairs.eq_def]
        simp +decide [parseJStr_escChars, List.dropWhile, parseVal_serVal,
          dropWhile_serVal, isJWs]
      | cons q ps' =>
        show parsePairs (f + 1)
            ((serPairChars p ++ ',' :: ' ' :: serPairsChars (q :: ps')) ++ '\x7d' :: rest)
          = some (p :: q :: ps', rest)
        have hs : (serPairChars p ++ ',' :: ' ' :: serPairsChars (q :: ps')) ++ '\x7d' :: rest
            = '"' :: (escChars p.1.data ++ '"' :: ':' :: ' '
              :: (serValChars p.2 ++ ',' :: ' '
                :: (serPairsChars (q :: ps') ++ '\x7d' :: rest))) := by
          simp [serPairChars, List.cons_append, List.append_assoc]
        rw [hs, parsePairs.eq_def]
        simp +decide [parseJStr_escChars, List.dropWhile, parseVal_serVal,
          dropWhile_serVal, dropWhile_serPairs, isJWs]
        rw [ih (by simp) f (by simpa using hf) rest]

theorem parseLine_dumpsObj (o : Obj) : parseLine (dumpsObj o) = some o := by
  cases o with
  | nil => rfl
  | cons p ps =>
    have hlen1 : ∀ (l : Obj), l.length ≤ (serPairsChars l).length := by
      intro l
      induction l with
      | nil => simp [serPairsChars]
      | cons a t iht =>
        cases t with
        | nil => simp [serPairsChars, serPairChars]
        | cons b t' =>
          simp only [serPairsChars, List.length_append, List.length_cons] at iht ⊢
          omega
    obtain ⟨t, ht⟩ : ∃ t, serPairsChars (p :: ps) = '"' :: t := by
      cases ps with
      | nil => exact ⟨_, rfl⟩
      | cons q ps' => exact ⟨_, rfl⟩
    rw [parseLine.eq_def]
    rw [show (dumpsObj (p :: ps)).data
        = '\x7b' :: (serPairsChars (p :: ps) ++ ['\x7d']) from rfl]
    set n := ('\x7b' :: (serPairsChars (p :: ps) ++ ['\x7d'])).length + 1 with hn
    have hrt := parsePairs_serPairs (p :: ps) (by simp) n
      (by
        have hl := hlen1 (p :: ps)
        rw [hn]
        simp only [List.length_cons, List.length_append] at hl ⊢
        omega) []
    rw [ht] at hrt ⊢
    simp only [List.cons_append] at hrt ⊢
    simp +decide [List.dropWhile, isJWs, hrt]

/-! Order lemmas for the sort relation. -/

theorem lexLe_total (a b : List Char) : lexLe a b = true ∨ lexLe b a = true := by
  induction a generalizing b with
  | nil => left; rfl
  | cons x xs ih =>
    cases b with
    | nil => right; rfl
    | cons y ys =>
      rcases Nat.lt_trichotomy x.toNat y.toNat with h | h | h
      · left; simp [lexLe, h]
      · rcases ih ys with h2 | h2
        · left; simp [lexLe, h, h2]
        · right; simp [lexLe, ← h, h2]
      · right; simp [lexLe, h]

theorem lexLe_trans {a b c : List Char} (h1 : lexLe a b = true)
    (h2 : lexLe b c = true) : lexLe a c = true := by
  induction a generalizing b c with
  | nil => rfl
  | cons x xs ih =>
    cases b with
    | nil => simp [lexLe] at h1
    | cons y ys =>
      cases c with
      | nil => simp [lexLe] at h2
      | cons z zs =>
        simp only [lexLe] at h1 h2 ⊢
        by_cases hxy : x.toNat < y.toNat
        · by_cases hyz : y.toNat < z.toNat
          · have hxz : x.toNat < z.toNat := by omega
            simp [hxz]
          · by_cases hyzeq : y.toNat = z.toNat
            · have hxz : x.toNat < z.toNat := by omega
              simp [hxz]
            · simp [hyz, hyzeq] at h2
        · by_cases hxyeq : x.toNat = y.toNat
          · simp [hxy, hxyeq] at h1
            by_cases hyz : y.toNat < z.toNat
            · have hxz : x.toNat < z.toNat := by omega
              simp [hxz]
            · by_cases hyzeq : y.toNat = z.toNat
              · simp [hyz, hyzeq] at h2
                have hxz1 : ¬ x.toNat < z.toNat := by omega
                have hxz2 : x.toNat = z.toNat := by omega
                simp [hxz1, hxz2]
                exact ih h1 h2
              · simp [hyz, hyzeq] at h2
          · simp [hxy, hxyeq] at h1

theorem strLe_total (a b : String) : strLe a b = true ∨ strLe b a = true :=
  lexLe_total a.data b.data

theorem strLe_trans {a b c : String} (h1 : strLe a b = true)
    (h2 : strLe b c = true) : strLe a c = true :=
  lexLe_trans h1 h2

/-! Dedup-store lemmas. -/

theorem lookupLast_toObj_id (e : Entry) :
    lookupLast "id" (toObj e) = some (some e.id) := rfl

theorem dateKey_toObj (e : Entry) : dateKey (toObj e) = e.date_utc := rfl

theorem load_ids_append_dumps (lines : List String) (items : List Obj) :
    load_ids (lines ++ items.map dumpsObj)
      = load_ids lines ++ items.filterMap (fun o => lookupLast "id" o) := by
  unfold load_ids
  rw [List.filterMap_append]
  congr 1
  rw [List.filterMap_map]
  apply List.filterMap_congr
  intro o _
  simp [Function.comp, parseLine_dumpsObj]

/-! Claim theorems. -/

/-- C9: when the log file at the given path does not exist, load_ids
returns the empty set and load_all_jsonl returns the empty list, and
neither raises (both embedded readers are total and take the early
missing-file branch). -/
theorem missing_log_defaults :
    load_ids_file none = [] ∧ load_all_jsonl_file none = [] :=
  ⟨rfl, rfl⟩

/-- C4: normalizing a film-feed entry titled Movie Title with three
filled glyphs and a half glyph extracts that glyph run, computes
3 + 0.5 and rounds it to 4 (an exact midpoint rounds to the even
neighbor here, which agrees with rounding half up), and renders
rating_stars as four filled glyphs and one empty glyph. -/
theorem film_rating_half_star (dtp : String → Option String) (now : String) :
    findStarRun "Movie Title ★★★½".data = some "★★★½".data
    ∧ stars_to_5 "★★★½" = 4
    ∧ (normalize_letterboxd_entry dtp now
        { guid := some "g", link := none, title := some "Movie Title ★★★½",
          summary := none, published := none, updated := none }).rating_stars
      = some "★★★★☆" := by
  refine ⟨by decide, by decide, ?_⟩
  show rating_to_stars ((findStarRun (pyStrip "Movie Title ★★★½").data).map
    (fun m => stars_to_5 (String.mk m))) = some "★★★★☆"
  decide

/-- C7: the id of a normalized entry is determined solely by the source
tag and the entry's native guid, or its link when the stripped guid is
empty; two raw entries agreeing on guid and link get the same id from
either normalizer even across runs with different date parsing and
different current times, so deduplication depends on id only. -/
theorem id_content_independent (dtp1 dtp2 : String → Option String)
    (now1 now2 : String) (e1 e2 : RawEntry)
    (hg : e1.guid = e2.guid) (hl : e1.link = e2.link) :
    (normalize_letterboxd_entry dtp1 now1 e1).id
      = (normalize_letterboxd_entry dtp2 now2 e2).id
    ∧ (normalize_goodreads_entry dtp1 now1 e1).id
      = (normalize_goodreads_entry dtp2 now2 e2).id
    ∧ (normalize_letterboxd_entry dtp1 now1 e1).id
      = "letterboxd:" ++ (if pyStrip (e1.guid.getD "") = ""
          then pyStrip (e1.link.getD "") else pyStrip (e1.guid.getD ""))
    ∧ (normalize_goodreads_entry dtp1 now1 e1).id
      = "goodreads:" ++ (if pyStrip (e1.guid.getD "") = ""
          then pyStrip (e1.link.getD "") else pyStrip (e1.guid.getD "")) := by
  refine ⟨?_, ?_, rfl, rfl⟩ <;>
    simp [normalize_letterboxd_entry, normalize_goodreads_entry, hg, hl]

/-- C7 witness: two raw entries sharing guid and link but with
different titles, summaries and dates, normalized in two runs with
different date parsers and clocks, receive identical ids. -/
theorem id_content_independent_witness :
    ({ guid := some "G1", link := some "L1", title := some "Old title",
            summary := none, published := some "2024-01-01",
            updated := none } : RawEntry).guid
      = ({ guid := some "G1", link := some "L1", title := some "New title",
            summary := some "edited", published := some "2024-02-02",
            updated := none } : RawEntry).guid
    ∧ ({ guid := some "G1", link := some "L1", title := some "Old title",
            summary := none, published := some "2024-01-01",
            updated := none } : RawEntry).link
      = ({ guid := some "G1", link := some "L1", title := some "New title",
            summary := some "edited", published := some "2024-02-02",
            updated := none } : RawEntry).link
    ∧ ((normalize_letterboxd_entry (fun _ => none) "T1"
        { guid := some "G1", link := some "L1", title := some "Old title",
              summary := none, published := some "2024-01-01",
              updated := none }).id
      = (normalize_letterboxd_entry (fun s => some s) "T2"
        { guid := some "G1", link := some "L1", title := some "New title",
              summary := some "edited", published := some "2024-02-02",
              updated := none }).id
    ∧ (normalize_goodreads_entry (fun _ => none) "T1"
        { guid := some "G1", link := some "L1", title := some "Old title",
              summary := none, published := some "2024-01-01",
              updated := none }).id
      = (normalize_goodreads_entry (fun s => some s) "T2"
        { guid := some "G1", link := some "L1", title := some "New title",
              summary := some "edited", published := some "2024-02-02",
              updated := none }).id
    ∧ (normalize_letterboxd_entry (fun _ => none) "T1"
        { guid := some "G1", link := some "L1", title := some "Old title",
              summary := none, published := some "2024-01-01",
              updated := none }).id
      = "letterboxd:" ++ (if pyStrip ((some "G1" : Option String).getD "") = ""
          then pyStrip ((some "L1" : Option String).getD "")
          else pyStrip ((some "G1" : Option String).getD ""))
    ∧ (normalize_goodreads_entry (fun _ => none) "T1"
        { guid := some "G1", link := some "L1", title := some "Old title",
              summary := none, published := some "2024-01-01",
              updated := none }).id
      = "goodreads:" ++ (if pyStrip ((some "G1" : Option String).getD "") = ""
          then pyStrip ((some "L1" : Option String).getD "")
          else pyStrip ((some "G1" : Option String).getD ""))) :=
  ⟨rfl, rfl, id_content_independent (fun _ => none) (fun s => some s) "T1" "T2"
    { guid := some "G1", link := some "L1", title := some "Old title",
        summary := none, published := some "2024-01-01", updated := none }
    { guid := some "G1", link := some "L1", title := some "New title",
        summary := some "edited", published := some "2024-02-02", updated := none }
    rfl rfl⟩

/-- C2: every list of Entry records appended to an empty log with
append_jsonl and reloaded with load_all_jsonl comes back as exactly the
original records, up to the reader's date-descending reordering: each
serialized line parses back to the very same record, with every
character of every field, non-ASCII glyphs included, intact, and the
record dictionary determines the Entry fields uniquely. -/
theorem round_trip (entries : List Entry) (o : Obj) (e1 e2 : Entry)
    (h : toObj e1 = toObj e2) :
    parseLine (dumpsObj o) = some o
    ∧ (load_all_jsonl (append_jsonl [] (entries.map toObj))).Perm (entries.map toObj)
    ∧ e1 = e2 := by
  refine ⟨parseLine_dumpsObj o, ?_, ?_⟩
  · have hstep : ∀ l : List Entry,
        ((l.map toObj).map dumpsObj).filterMap parseLine = l.map toObj := by
      intro l
      induction l with
      | nil => rfl
      | cons a t iht =>
        simp only [List.map_cons, List.filterMap_cons, parseLine_dumpsObj, iht]
    have hfm : (append_jsonl [] (entries.map toObj)).filterMap parseLine
        = entries.map toObj := by
      simpa only [append_jsonl, List.nil_append] using hstep entries
    unfold load_all_jsonl sortDesc
    rw [hfm]
    exact List.perm_insertionSort _ _
  · cases e1
    cases e2
    simp only [toObj, List.cons.injEq, Prod.mk.injEq, Option.some.injEq,
      and_true, true_and] at h
    simp_all

/-- C2 witness: a record carrying non-ASCII glyphs in title, rating and
review survives the append-reload cycle untouched. -/
theorem round_trip_witness :
    toObj { id := "books:1", title := "Dune ★", link := "http://x/y", rating_stars := some "★★★★☆", review_html := "great ½ review", date_utc := "2024-05-05T00:00:00+00:00" }
      = toObj { id := "books:1", title := "Dune ★", link := "http://x/y", rating_stars := some "★★★★☆", review_html := "great ½ review", date_utc := "2024-05-05T00:00:00+00:00" }
    ∧ (parseLine (dumpsObj [("k", some "v★")]) = some [("k", some "v★")]
      ∧ (load_all_jsonl (append_jsonl []
          ([({ id := "books:1", title := "Dune ★", link := "http://x/y", rating_stars := some "★★★★☆", review_html := "great ½ review", date_utc := "2024-05-05T00:00:00+00:00" } : Entry)].map toObj))).Perm
          ([({ id := "books:1", title := "Dune ★", link := "http://x/y", rating_stars := some "★★★★☆", review_html := "great ½ review", date_utc := "2024-05-05T00:00:00+00:00" } : Entry)].map toObj)
      ∧ ({ id := "books:1", title := "Dune ★", link := "http://x/y", rating_stars := some "★★★★☆", review_html := "great ½ review", date_utc := "2024-05-05T00:00:00+00:00" } : Entry)
          = { id := "books:1", title := "Dune ★", link := "http://x/y", rating_stars := some "★★★★☆", review_html := "great ½ review", date_utc := "2024-05-05T00:00:00+00:00" }) :=
  ⟨rfl, round_trip
    [{ id := "books:1", title := "Dune ★", link := "http://x/y", rating_stars := some "★★★★☆", review_html := "great ½ review", date_utc := "2024-05-05T00:00:00+00:00" }]
    [("k", some "v★")]
    { id := "books:1", title := "Dune ★", link := "http://x/y", rating_stars := some "★★★★☆", review_html := "great ½ review", date_utc := "2024-05-05T00:00:00+00:00" }
    { id := "books:1", title := "Dune ★", link := "http://x/y", rating_stars := some "★★★★☆", review_html := "great ½ review", date_utc := "2024-05-05T00:00:00+00:00" }
    rfl⟩

/-- C8 (code bug): the claim's tolerance holds for lines json.loads
rejects, which both readers skip, but not in general: only the parse
sits inside load_all_jsonl's try, so a JSON-parseable non-record line
such as the bare number five is included in the item list and the sort
key access then raises AttributeError instead of the line being
skipped; load_ids, whose try also covers the subscript, does skip that
line, yet collects the integer id of a line whose record maps id to a
number.  Each conjunct evaluates a reader at such an input. -/
theorem tolerant_read_code_bug :
    loadsPy "5" = some (JsonVal.num "5")
    ∧ load_all_jsonl_py ["5"] = Except.error PyErr.attributeError
    ∧ load_all_jsonl_py
        [dumpsObj [("id", some "a"), ("date_utc", some "2024-01-01")], "5"]
      = Except.error PyErr.attributeError
    ∧ load_ids_py ["5"] = []
    ∧ load_ids_py ["not json"] = []
    ∧ load_all_jsonl_py ["not json",
        dumpsObj [("id", some "a"), ("date_utc", some "2024-01-01")]]
      = Except.ok [objToJson [("id", some "a"), ("date_utc", some "2024-01-01")]]
    ∧ load_ids_py ["\x7b\"id\": 5\x7d"] = [JsonVal.num "5"] :=
  ⟨rfl, rfl, rfl, rfl, rfl, rfl, rfl⟩

/-- C3 counterexample: load_all_jsonl does not return the sorted record
list for every log contents.  The bare number five is JSON-parseable,
so the reader includes it and the sort-key access raises
AttributeError; and a record whose date_utc is null next to a
string-dated record makes the key comparison raise TypeError. -/
theorem load_all_sorted_counterexample :
    loadsPy "5" = some (JsonVal.num "5")
    ∧ load_all_jsonl_py ["5"] = Except.error PyErr.attributeError
    ∧ load_all_jsonl_py
        [dumpsObj [("id", some "a"), ("date_utc", none)],
         dumpsObj [("id", some "b"), ("date_utc", some "2024-01-01")]]
      = Except.error PyErr.typeError :=
  ⟨rfl, rfl, rfl⟩

/-- C3 (amended): on every log whose JSON-parseable lines are all
objects with a string or absent date_utc - in particular every log the
script writes - load_all_jsonl returns the parsed records sorted by the
date_utc key in descending code-point-lexicographic order and loses no
record; a record without a date_utc key gets the empty string as its
key, sorting it after every nonempty date, and the three example dates
come back newest first.  On other logs the real function can raise
instead, as the counterexample shows. -/
theorem load_all_sorted_amended (lines : List String)
    (f : List (String × JsonVal)) (hf : jLookupLast "date_utc" f = none)
    (hobj : ∀ v ∈ lines.filterMap loadsPy, jIsObj v = true)
    (hdate : ∀ v ∈ lines.filterMap loadsPy, jDateStrOk v = true) :
    load_all_jsonl_py lines = Except.ok (sortDescPy (lines.filterMap loadsPy))
    ∧ (sortDescPy (lines.filterMap loadsPy)).Sorted
        (fun a b => strLe (dateKeyJ b) (dateKeyJ a) = true)
    ∧ (sortDescPy (lines.filterMap loadsPy)).Perm (lines.filterMap loadsPy)
    ∧ dateKeyJ (JsonVal.obj f) = ""
    ∧ load_all_jsonl_py
        [dumpsObj (toObj { id := "a", title := "", link := "", rating_stars := none, review_html := "", date_utc := "2024-01-01" }),
         dumpsObj (toObj { id := "b", title := "", link := "", rating_stars := none, review_html := "", date_utc := "2024-06-01" }),
         dumpsObj (toObj { id := "c", title := "", link := "", rating_stars := none, review_html := "", date_utc := "2023-12-31" })]
      = Except.ok
        [objToJson (toObj { id := "b", title := "", link := "", rating_stars := none, review_html := "", date_utc := "2024-06-01" }),
         objToJson (toObj { id := "a", title := "", link := "", rating_stars := none, review_html := "", date_utc := "2024-01-01" }),
         objToJson (toObj { id := "c", title := "", link := "", rating_stars := none, review_html := "", date_utc := "2023-12-31" })] := by
  haveI : IsTrans JsonVal (fun a b => strLe (dateKeyJ b) (dateKeyJ a) = true) :=
    ⟨fun _ _ _ hab hbc => strLe_trans hbc hab⟩
  haveI : IsTotal JsonVal (fun a b => strLe (dateKeyJ b) (dateKeyJ a) = true) :=
    ⟨fun a b => strLe_total (dateKeyJ b) (dateKeyJ a)⟩
  refine ⟨?_, List.sorted_insertionSort _ _, List.perm_insertionSort _ _, ?_, rfl⟩
  · have h1 : (lines.filterMap loadsPy).all jIsObj = true :=
      List.all_eq_true.mpr hobj
    have h2 : (lines.filterMap loadsPy).all jDateStrOk = true :=
      List.all_eq_true.mpr hdate
    simp [load_all_jsonl_py, h1, h2]
  · show (match jLookupLast "date_utc" f with
      | some (JsonVal.str s) => s
      | _ => "") = ""
    rw [hf]

/-- C3 witness: a two-line log of records, one lacking the date key,
and a dateless record object for the empty-key conjunct. -/
theorem load_all_sorted_amended_witness :
    jLookupLast "date_utc" [("id", JsonVal.str "x")] = none
    ∧ (∀ v ∈ ([dumpsObj [("id", some "x")],
        dumpsObj [("id", some "y"), ("date_utc", some "2024-01-01")]]
        : List String).filterMap loadsPy, jIsObj v = true)
    ∧ (∀ v ∈ ([dumpsObj [("id", some "x")],
        dumpsObj [("id", some "y"), ("date_utc", some "2024-01-01")]]
        : List String).filterMap loadsPy, jDateStrOk v = true)
    ∧ (load_all_jsonl_py [dumpsObj [("id", some "x")],
          dumpsObj [("id", some "y"), ("date_utc", some "2024-01-01")]]
        = Except.ok (sortDescPy (([dumpsObj [("id", some "x")],
            dumpsObj [("id", some "y"), ("date_utc", some "2024-01-01")]]
            : List String).filterMap loadsPy))
      ∧ (sortDescPy (([dumpsObj [("id", some "x")],
          dumpsObj [("id", some "y"), ("date_utc", some "2024-01-01")]]
          : List String).filterMap loadsPy)).Sorted
          (fun a b => strLe (dateKeyJ b) (dateKeyJ a) = true)
      ∧ (sortDescPy (([dumpsObj [("id", some "x")],
          dumpsObj [("id", some "y"), ("date_utc", some "2024-01-01")]]
          : List String).filterMap loadsPy)).Perm
          (([dumpsObj [("id", some "x")],
            dumpsObj [("id", some "y"), ("date_utc", some "2024-01-01")]]
            : List String).filterMap loadsPy)
      ∧ dateKeyJ (JsonVal.obj [("id", JsonVal.str "x")]) = ""
      ∧ load_all_jsonl_py
          [dumpsObj (toObj { id := "a", title := "", link := "", rating_stars := none, review_html := "", date_utc := "2024-01-01" }),
           dumpsObj (toObj { id := "b", title := "", link := "", rating_stars := none, review_html := "", date_utc := "2024-06-01" }),
           dumpsObj (toObj { id := "c", title := "", link := "", rating_stars := none, review_html := "", date_utc := "2023-12-31" })]
        = Except.ok
          [objToJson (toObj { id := "b", title := "", link := "", rating_stars := none, review_html := "", date_utc := "2024-06-01" }),
           objToJson (toObj { id := "a", title := "", link := "", rating_stars := none, review_html := "", date_utc := "2024-01-01" }),
           objToJson (toObj { id := "c", title := "", link := "", rating_stars := none, review_html := "", date_utc := "2023-12-31" })]) :=
  ⟨rfl, by decide, by decide,
    load_all_sorted_amended
      [dumpsObj [("id", some "x")],
        dumpsObj [("id", some "y"), ("date_utc", some "2024-01-01")]]
      [("id", JsonVal.str "x")] rfl (by decide) (by decide)⟩

/-- A normalized entry without a rating renders with no rating line:
no write of its block starts with the rating paragraph opening. -/
theorem hasRatingLine_none (x : Entry) (h : x.rating_stars = none) :
    hasRatingLine (toObj x) = false := by
  have hstars : pyGetD (toObj x) "rating_stars" "" = "" := by
    unfold pyGetD
    rw [show lookupLast "rating_stars" (toObj x) = some x.rating_stars from rfl, h]
  unfold hasRatingLine renderEntryWrites
  rw [hstars]
  by_cases hl : pyGetD (toObj x) "link" "" = "" <;>
    by_cases hr : pyGetD (toObj x) "review_html" "" = "" <;>
      simp +decide [hl, hr, List.isPrefixOf]

/-- A normalized entry with a nonempty rating string renders a rating
line: the rating write starts with the rating paragraph opening. -/
theorem hasRatingLine_some (x : Entry) (s : String) (h : x.rating_stars = some s)
    (hs : s ≠ "") :
    hasRatingLine (toObj x) = true := by
  have hstars : pyGetD (toObj x) "rating_stars" "" = s := by
    unfold pyGetD
    rw [show lookupLast "rating_stars" (toObj x) = some x.rating_stars from rfl, h]
  unfold hasRatingLine renderEntryWrites
  rw [hstars]
  simp +decide [hs, List.isPrefixOf]

/-- C6: a book-feed summary containing the case-insensitive pattern of
the word rating, a colon and a digit yields that digit as the rating,
rendered as filled-then-empty glyphs; a summary with no such pattern
yields a null rating and the rendered block for the entry has no
ratings line. -/
theorem book_rating_derivation (dtp : String → Option String) (now : String)
    (e : RawEntry)
    (hn : findRating (pyStrip (e.summary.getD "")).data = none) :
    findRating "Some text Rating: 3 more".data = some 3
    ∧ (normalize_goodreads_entry dtp now
        { guid := some "g", link := none, title := none,
          summary := some "Some text Rating: 3 more", published := none,
          updated := none }).rating_stars = some "★★★☆☆"
    ∧ (normalize_goodreads_entry dtp now e).rating_stars = none
    ∧ hasRatingLine (toObj (normalize_goodreads_entry dtp now e)) = false := by
  have h3 : (normalize_goodreads_entry dtp now e).rating_stars
      = rating_to_stars (findRating (pyStrip (e.summary.getD "")).data) := rfl
  refine ⟨by decide, ?_, ?_, ?_⟩
  · show rating_to_stars
        (findRating (pyStrip "Some text Rating: 3 more").data) = some "★★★☆☆"
    decide
  · rw [h3, hn]
    rfl
  · exact hasRatingLine_none _ (by rw [h3, hn]; rfl)

/-- C6 witness: a summary with no rating pattern yields a null rating
and no ratings line. -/
theorem book_rating_derivation_witness :
    findRating (pyStrip ((some "plain words only" : Option String).getD "")).data = none
    ∧ (findRating "Some text Rating: 3 more".data = some 3
      ∧ (normalize_goodreads_entry (fun _ => none) "T"
          { guid := some "g", link := none, title := none,
            summary := some "Some text Rating: 3 more", published := none,
            updated := none }).rating_stars = some "★★★☆☆"
      ∧ (normalize_goodreads_entry (fun _ => none) "T"
          { guid := none, link := none, title := none,
            summary := some "plain words only", published := none,
            updated := none }).rating_stars = none
      ∧ hasRatingLine (toObj (normalize_goodreads_entry (fun _ => none) "T"
          { guid := none, link := none, title := none,
            summary := some "plain words only", published := none,
            updated := none })) = false) :=
  ⟨by decide, book_rating_derivation (fun _ => none) "T"
    { guid := none, link := none, title := none,
      summary := some "plain words only", published := none, updated := none }
    (by decide)⟩

/-- C10: the glyph rendering of every rating from 0 to 5 is a nonempty
string, so an extracted zero rating, possible only through the book
rule, renders as five empty glyphs with a visible ratings line, unlike
an absent rating which renders as no line at all. -/
theorem zero_rating_visible (n : Nat) (hn : n ≤ 5) (dtp : String → Option String)
    (now : String) (e : RawEntry)
    (h0 : findRating (pyStrip (e.summary.getD "")).data = some 0) :
    mkStars n ≠ ""
    ∧ rating_to_stars (some n) = some (mkStars n)
    ∧ rating_to_stars none = none
    ∧ (normalize_goodreads_entry dtp now e).rating_stars = some "☆☆☆☆☆"
    ∧ hasRatingLine (toObj (normalize_goodreads_entry dtp now e)) = true := by
  have h3 : (normalize_goodreads_entry dtp now e).rating_stars
      = rating_to_stars (findRating (pyStrip (e.summary.getD "")).data) := rfl
  have hrs : (normalize_goodreads_entry dtp now e).rating_stars = some "☆☆☆☆☆" := by
    rw [h3, h0]
    rfl
  refine ⟨?_, rfl, rfl, hrs, hasRatingLine_some _ _ hrs (by decide)⟩
  intro hcon
  have hlen : (List.replicate n '★' ++ List.replicate (5 - n) '☆').length = 0 :=
    congrArg (fun s => s.data.length) hcon
  simp only [List.length_append, List.length_replicate] at hlen
  omega

/-- C10 witness: the zero rating extracted from a summary reading
rating colon zero renders visibly. -/
theorem zero_rating_visible_witness :
    0 ≤ 5
    ∧ findRating (pyStrip ((some "rating: 0" : Option String).getD "")).data = some 0
    ∧ (mkStars 0 ≠ ""
      ∧ rating_to_stars (some 0) = some (mkStars 0)
      ∧ rating_to_stars none = none
      ∧ (normalize_goodreads_entry (fun _ => none) "T"
          { guid := none, link := none, title := none,
            summary := some "rating: 0", published := none,
            updated := none }).rating_stars = some "☆☆☆☆☆"
      ∧ hasRatingLine (toObj (normalize_goodreads_entry (fun _ => none) "T"
          { guid := none, link := none, title := none,
            summary := some "rating: 0", published := none,
            updated := none })) = true) :=
  ⟨by decide, by decide, zero_rating_visible 0 (by decide) (fun _ => none) "T"
    { guid := none, link := none, title := none,
      summary := some "rating: 0", published := none, updated := none }
    (by decide)⟩

/-! Bound on the extracted book rating. -/

theorem matchRatingAt_le {cs : List Char} {n : Nat}
    (h : matchRatingAt cs = some n) : n ≤ 5 := by
  unfold matchRatingAt at h
  split at h
  · split at h
    · split at h
      · rename_i hcond
        split at h
        · rename_i hdig
          simp only [Option.some.injEq] at h
          simp only [Bool.and_eq_true, decide_eq_true_eq] at hdig
          omega
        · exact absurd h (by simp)
      · exact absurd h (by simp)
    · exact absurd h (by simp)
  · exact absurd h (by simp)

theorem findRating_le_5 : ∀ (cs : List Char) (n : Nat),
    findRating cs = some n → n ≤ 5 := by
  intro cs
  induction cs with
  | nil =>
    intro n h
    simp [findRating] at h
  | cons c rest ih =>
    intro n h
    unfold findRating at h
    split at h
    · rename_i k hk
      simp only [Option.some.injEq] at h
      subst h
      exact matchRatingAt_le hk
    · exact ih n h

/-- C5 counterexample: a film title whose glyph run holds six filled
glyphs normalizes to a rating_stars of six filled glyphs and no empty
glyph, which is neither null nor a five-glyph string of n filled and
5 - n empty glyphs with n at most 5. -/
theorem rating_shape_counterexample :
    (normalize_letterboxd_entry (fun _ => none) "T"
      { guid := some "g", link := none, title := some "★★★★★★",
        summary := none, published := none, updated := none }).rating_stars
      = some "★★★★★★"
    ∧ ¬ ((normalize_letterboxd_entry (fun _ => none) "T"
        { guid := some "g", link := none, title := some "★★★★★★",
          summary := none, published := none, updated := none }).rating_stars = none
      ∨ ∃ n, n ≤ 5
        ∧ (normalize_letterboxd_entry (fun _ => none) "T"
            { guid := some "g", link := none, title := some "★★★★★★",
              summary := none, published := none, updated := none }).rating_stars
          = some (String.mk (List.replicate n '★' ++ List.replicate (5 - n) '☆'))) := by
  have hr : (normalize_letterboxd_entry (fun _ => none) "T"
      { guid := some "g", link := none, title := some "★★★★★★",
        summary := none, published := none, updated := none }).rating_stars
      = some "★★★★★★" := by decide
  refine ⟨hr, ?_⟩
  rintro (hnone | ⟨n, hn5, hshape⟩)
  · rw [hr] at hnone
    exact Option.noConfusion hnone
  · rw [hr] at hshape
    simp only [Option.some.injEq] at hshape
    have hlen : ("★★★★★★" : String).data.length
        = (List.replicate n '★' ++ List.replicate (5 - n) '☆').length := by
      rw [hshape]
    rw [show ("★★★★★★" : String).data.length = 6 from rfl] at hlen
    simp only [List.length_append, List.length_replicate] at hlen
    omega

/-- C5 (amended): the rating_stars of a normalized entry is either null
or the glyph string of the extracted integer rating n, made of n filled
glyphs followed by 5 - n (truncated subtraction) empty glyphs; the book
normalizer always extracts n at most 5, so there the string has exactly
five glyphs, while the film normalizer can extract n above 5, in which
case the string is all filled glyphs and longer than five. -/
theorem rating_shape_amended (dtp : String → Option String) (now : String)
    (e : RawEntry) (n : Nat) (hn : n ≤ 5) :
    ((normalize_letterboxd_entry dtp now e).rating_stars = none
      ∨ ∃ k, (normalize_letterboxd_entry dtp now e).rating_stars = some (mkStars k))
    ∧ ((normalize_goodreads_entry dtp now e).rating_stars = none
      ∨ ∃ k, k ≤ 5 ∧ (normalize_goodreads_entry dtp now e).rating_stars
          = some (mkStars k))
    ∧ mkStars n = String.mk (List.replicate n '★' ++ List.replicate (5 - n) '☆')
    ∧ (mkStars n).data.length = 5 := by
  refine ⟨?_, ?_, rfl, ?_⟩
  · have h3 : (normalize_letterboxd_entry dtp now e).rating_stars
        = rating_to_stars ((findStarRun (pyStrip (e.title.getD "")).data).map
            (fun m => stars_to_5 (String.mk m))) := rfl
    rw [h3]
    cases hfs : findStarRun (pyStrip (e.title.getD "")).data with
    | none => exact Or.inl rfl
    | some m => exact Or.inr ⟨stars_to_5 (String.mk m), rfl⟩
  · have h3 : (normalize_goodreads_entry dtp now e).rating_stars
        = rating_to_stars (findRating (pyStrip (e.summary.getD "")).data) := rfl
    rw [h3]
    cases hfr : findRating (pyStrip (e.summary.getD "")).data with
    | none => exact Or.inl rfl
    | some k => exact Or.inr ⟨k, findRating_le_5 _ k hfr, rfl⟩
  · show (List.replicate n '★' ++ List.replicate (5 - n) '☆').length = 5
    simp only [List.length_append, List.length_replicate]
    omega

/-- C5 witness: the amended shape at a rated film entry, a rated book
entry and the boundary rating 5. -/
theorem rating_shape_amended_witness :
    5 ≤ 5
    ∧ (((normalize_letterboxd_entry (fun _ => none) "T"
        { guid := some "g", link := none, title := some "A ★★★",
          summary := none, published := none, updated := none }).rating_stars = none
      ∨ ∃ k, (normalize_letterboxd_entry (fun _ => none) "T"
          { guid := some "g", link := none, title := some "A ★★★",
            summary := none, published := none, updated := none }).rating_stars
          = some (mkStars k))
    ∧ ((normalize_goodreads_entry (fun _ => none) "T"
        { guid := some "g", link := none, title := some "A ★★★",
          summary := none, published := none, updated := none }).rating_stars = none
      ∨ ∃ k, k ≤ 5 ∧ (normalize_goodreads_entry (fun _ => none) "T"
          { guid := some "g", link := none, title := some "A ★★★",
            summary := none, published := none, updated := none }).rating_stars
          = some (mkStars k))
    ∧ mkStars 5 = String.mk (List.replicate 5 '★' ++ List.replicate (5 - 5) '☆')
    ∧ (mkStars 5).data.length = 5) :=
  ⟨by decide, rating_shape_amended (fun _ => none) "T"
    { guid := some "g", link := none, title := some "A ★★★",
      summary := none, published := none, updated := none } 5 (by decide)⟩

/-! Dedup-cycle lemmas. -/

theorem load_ids_run (lines : List String) (new : List Entry) :
    load_ids (append_jsonl lines (new.map toObj))
      = load_ids lines ++ new.map (fun e => (some e.id : JVal)) := by
  unfold append_jsonl load_ids
  rw [List.filterMap_append]
  congr 1
  rw [List.map_map]
  have hstep : ∀ l : List Entry,
      (l.map (dumpsObj ∘ toObj)).filterMap
        (fun l2 => (parseLine l2).bind (lookupLast "id"))
      = l.map (fun e => (some e.id : JVal)) := by
    intro l
    induction l with
    | nil => rfl
    | cons a t iht =>
      simp only [List.map_cons, List.filterMap_cons, Function.comp_apply,
        parseLine_dumpsObj, Option.some_bind, lookupLast_toObj_id, iht]
  exact hstep new

theorem run_twice_core (nf1 nf2 : RawEntry → Entry)
    (hid : ∀ r, (nf2 r).id = (nf1 r).id)
    (lines : List String) (raws : List RawEntry)
    (hlog : (load_ids lines).Nodup)
    (hfeed : ((raws.map nf1).map (fun e => (some e.id : JVal))).Nodup) :
    filterNew (append_jsonl lines ((filterNew lines (raws.map nf1)).map toObj))
        (raws.map nf2) = []
    ∧ append_jsonl (append_jsonl lines ((filterNew lines (raws.map nf1)).map toObj))
        ((filterNew (append_jsonl lines ((filterNew lines (raws.map nf1)).map toObj))
          (raws.map nf2)).map toObj)
      = append_jsonl lines ((filterNew lines (raws.map nf1)).map toObj)
    ∧ (load_ids (append_jsonl lines ((filterNew lines (raws.map nf1)).map toObj))).Nodup := by
  have hids : load_ids (append_jsonl lines ((filterNew lines (raws.map nf1)).map toObj))
      = load_ids lines
        ++ (filterNew lines (raws.map nf1)).map (fun e => (some e.id : JVal)) :=
    load_ids_run lines (filterNew lines (raws.map nf1))
  have hmem : ∀ x ∈ raws.map nf2, (some x.id : JVal)
      ∈ load_ids (append_jsonl lines ((filterNew lines (raws.map nf1)).map toObj)) := by
    intro x hx
    obtain ⟨r, hr, rfl⟩ := List.mem_map.mp hx
    rw [hids, hid r]
    by_cases hseen : (some (nf1 r).id : JVal) ∈ load_ids lines
    · exact List.mem_append_left _ hseen
    · refine List.mem_append_right _ ?_
      refine List.mem_map.mpr ⟨nf1 r, ?_, rfl⟩
      unfold filterNew
      refine List.mem_filter.mpr ⟨List.mem_map.mpr ⟨r, hr, rfl⟩, ?_⟩
      simp [hseen]
  have hempty : filterNew (append_jsonl lines ((filterNew lines (raws.map nf1)).map toObj))
      (raws.map nf2) = [] := by
    rw [show filterNew (append_jsonl lines ((filterNew lines (raws.map nf1)).map toObj))
          (raws.map nf2)
        = (raws.map nf2).filter (fun e => !decide ((some e.id : JVal)
            ∈ load_ids (append_jsonl lines
              ((filterNew lines (raws.map nf1)).map toObj)))) from rfl]
    rw [List.filter_eq_nil_iff]
    intro x hx
    simp [hmem x hx]
  refine ⟨hempty, ?_, ?_⟩
  · rw [hempty]
    simp [append_jsonl]
  · rw [hids]
    refine List.Nodup.append hlog ?_ ?_
    · have hsub : List.Sublist (filterNew lines (raws.map nf1)) (raws.map nf1) :=
        List.filter_sublist _
      exact List.Nodup.sublist (List.Sublist.map _ hsub) hfeed
    · intro a ha hamap
      obtain ⟨e, he, rfl⟩ := List.mem_map.mp hamap
      have hfe := List.mem_filter.mp he
      simp only [Bool.not_eq_true', decide_eq_false_iff_not] at hfe
      exact hfe.2 ha

/-- C1: running the normalize, filter-by-seen-ids, append cycle a
second time over an unchanged raw feed, even with a different date
parser and clock, appends nothing: the second run's filtered subset is
empty and the log is unchanged; and when the log's stored ids and the
feed's normalized ids are duplicate-free, the log after the first run
still has no duplicate ids.  Both the film and the book cycles are
covered. -/
theorem dedup_idempotent (dtp1 dtp2 : String → Option String) (now1 now2 : String)
    (lines : List String) (raws : List RawEntry)
    (hlog : (load_ids lines).Nodup)
    (hfilm : ((normalize_letterboxd dtp1 now1 raws).map
      (fun e => (some e.id : JVal))).Nodup)
    (hbook : ((normalize_goodreads dtp1 now1 raws).map
      (fun e => (some e.id : JVal))).Nodup) :
    (filterNew (runLetterboxd dtp1 now1 lines raws)
        (normalize_letterboxd dtp2 now2 raws) = []
      ∧ runLetterboxd dtp2 now2 (runLetterboxd dtp1 now1 lines raws) raws
        = runLetterboxd dtp1 now1 lines raws
      ∧ (load_ids (runLetterboxd dtp1 now1 lines raws)).Nodup)
    ∧ (filterNew (runGoodreads dtp1 now1 lines raws)
        (normalize_goodreads dtp2 now2 raws) = []
      ∧ runGoodreads dtp2 now2 (runGoodreads dtp1 now1 lines raws) raws
        = runGoodreads dtp1 now1 lines raws
      ∧ (load_ids (runGoodreads dtp1 now1 lines raws)).Nodup) := by
  constructor
  · have hcore := run_twice_core (normalize_letterboxd_entry dtp1 now1)
      (normalize_letterboxd_entry dtp2 now2) (fun _ => rfl) lines raws hlog
      (by simpa [normalize_letterboxd] using hfilm)
    simpa [runLetterboxd, normalize_letterboxd] using hcore
  · have hcore := run_twice_core (normalize_goodreads_entry dtp1 now1)
      (normalize_goodreads_entry dtp2 now2) (fun _ => rfl) lines raws hlog
      (by simpa [normalize_goodreads] using hbook)
    simpa [runGoodreads, normalize_goodreads] using hcore

/-- C1 witness: one raw film-and-book entry, an empty log, two runs
with different date parsers and clocks. -/
theorem dedup_idempotent_witness :
    (load_ids []).Nodup
    ∧ ((normalize_letterboxd (fun _ => none) "T1"
        [{ guid := some "g1", link := none, title := some "A ★★★", summary := none, published := none, updated := none }]).map
        (fun e => (some e.id : JVal))).Nodup
    ∧ ((normalize_goodreads (fun _ => none) "T1"
        [{ guid := some "g1", link := none, title := some "A ★★★", summary := none, published := none, updated := none }]).map
        (fun e => (some e.id : JVal))).Nodup
    ∧ ((filterNew (runLetterboxd (fun _ => none) "T1" []
          [{ guid := some "g1", link := none, title := some "A ★★★", summary := none, published := none, updated := none }])
        (normalize_letterboxd (fun s => some s) "T2"
          [{ guid := some "g1", link := none, title := some "A ★★★", summary := none, published := none, updated := none }]) = []
      ∧ runLetterboxd (fun s => some s) "T2"
          (runLetterboxd (fun _ => none) "T1" []
            [{ guid := some "g1", link := none, title := some "A ★★★", summary := none, published := none, updated := none }])
          [{ guid := some "g1", link := none, title := some "A ★★★", summary := none, published := none, updated := none }]
        = runLetterboxd (fun _ => none) "T1" []
            [{ guid := some "g1", link := none, title := some "A ★★★", summary := none, published := none, updated := none }]
      ∧ (load_ids (runLetterboxd (fun _ => none) "T1" []
          [{ guid := some "g1", link := none, title := some "A ★★★", summary := none, published := none, updated := none }])).Nodup)
    ∧ (filterNew (runGoodreads (fun _ => none) "T1" []
          [{ guid := some "g1", link := none, title := some "A ★★★", summary := none, published := none, updated := none }])
        (normalize_goodreads (fun s => some s) "T2"
          [{ guid := some "g1", link := none, title := some "A ★★★", summary := none, published := none, updated := none }]) = []
      ∧ runGoodreads (fun s => some s) "T2"
          (runGoodreads (fun _ => none) "T1" []
            [{ guid := some "g1", link := none, title := some "A ★★★", summary := none, published := none, updated := none }])
          [{ guid := some "g1", link := none, title := some "A ★★★", summary := none, published := none, updated := none }]
        = runGoodreads (fun _ => none) "T1" []
            [{ guid := some "g1", link := none, title := some "A ★★★", summary := none, published := none, updated := none }]
      ∧ (load_ids (runGoodreads (fun _ => none) "T1" []
          [{ guid := some "g1", link := none, title := some "A ★★★", summary := none, published := none, updated := none }])).Nodup)) :=
  ⟨by decide, by decide, by decide,
    dedup_idempotent (fun _ => none) (fun s => some s) "T1" "T2" []
      [{ guid := some "g1", link := none, title := some "A ★★★", summary := none, published := none, updated := none }]
      (by decide) (by decide) (by decide)⟩

end SyncRss
